import Mathlib

/-!
Shallow embedding of the Saleor dashboard front-end logic named by the
claims: the Apollo error link that strips the auth token on HTTP 401
(`index.tsx`), the product-list URL/dialog parameter handling and
bulk-delete completion handler (`products/views/ProductList.tsx`), the
category-list bulk-delete completion handler (`CategoryList`), pagination
state construction, the bulk-selection hook, variant attribute error
mapping (`products/utils/data.ts`), the storefront variant picker
(`variantPicker/VariantPicker.js`), the multi autocomplete select field,
and the optimistic reorder response (`products/mutations.ts`).
-/

/- ## C2: invalidTokenLink (dashboard-next/index.tsx) -/

/-- The `networkError` object of an Apollo `ErrorResponse`, as declared by
the `ResponseError` interface in `index.tsx`: an error with optional
`statusCode` and `bodyText`. -/
structure NetworkError where
  statusCode : Option Nat
  bodyText : Option String
deriving DecidableEq, Repr

/-- The `ResponseError` passed to the `onError` link: the `networkError`
field may be absent. -/
structure ResponseError where
  networkError : Option NetworkError
deriving DecidableEq, Repr

/-- Client-side state holding the stored auth token (absent once removed). -/
structure DashboardState where
  authToken : Option String
deriving DecidableEq, Repr

/-- Function `removeAuthToken` from `./auth`: clears the stored token. -/
def removeAuthToken (st : DashboardState) : DashboardState :=
  { st with authToken := none }

/-- Link `invalidTokenLink` from `index.tsx`:
`if (error.networkError && error.networkError.statusCode === 401) removeAuthToken()`.
Any other response leaves the state untouched. -/
def invalidTokenLink (e : ResponseError) (st : DashboardState) : DashboardState :=
  match e.networkError with
  | some ne => if ne.statusCode = some 401 then removeAuthToken st else st
  | none => st

/- ## C4: openModal / closeModal / ActionDialog open (ProductList.tsx) -/

/-- Enum `StockAvailability` of filter values used by the product list. -/
inductive StockAvailability where
  | inStock
  | outOfStock
deriving DecidableEq, Repr

/-- Enum `ProductListUrlDialog`: the dialogs the product list URL can name. -/
inductive ProductListUrlDialog where
  | delete
  | publish
  | unpublish
deriving DecidableEq, Repr

/-- Interface `ProductListUrlQueryParams`: the query-string fields of the product
list URL — dialog `action`, selected `ids`, pagination cursors
`after`/`before`, and the `status` filter. -/
structure ProductListUrlQueryParams where
  action : Option ProductListUrlDialog
  ids : Option (List String)
  after : Option String
  before : Option String
  status : Option StockAvailability
deriving DecidableEq, Repr

/-- Function `openModal(action, ids)` in `ProductList.tsx` navigates to
`productListUrl({...params, action, ids})`: the current params with the
`action` and `ids` fields replaced. -/
def openModal (params : ProductListUrlQueryParams)
    (action : ProductListUrlDialog) (ids : List String) :
    ProductListUrlQueryParams :=
  { params with action := some action, ids := some ids }

/-- Function `closeModal` in `ProductList.tsx` navigates to
`productListUrl({...params, action: undefined, ids: undefined})`. -/
def closeModal (params : ProductListUrlQueryParams) : ProductListUrlQueryParams :=
  { params with action := none, ids := none }

/-- The `ActionDialog` for bulk delete is rendered with
`open={params.action === "delete"}`. -/
def deleteDialogOpen (params : ProductListUrlQueryParams) : Bool :=
  params.action = some ProductListUrlDialog.delete

/- ## C5: createPaginationState (definition not under src; call sites in
ProductList.tsx, CategoryList and ProductTypeList) -/

/-- The `{after, before}` query params handed to the pagination helper. -/
structure PageParams where
  after : Option String
  before : Option String
deriving DecidableEq, Repr

/-- GraphQL connection variables (`first`/`after` or `last`/`before`). -/
structure ConnectionVars where
  first : Option Nat
  after : Option String
  last : Option Nat
  before : Option String
deriving DecidableEq, Repr

/-- Modelled from the spec: the body of `createPaginationState` is not under
`src/` (only its call sites are). The spec describes it as: given
`{after, before}` query params and a page size, compute GraphQL connection
variables; pure, stateless, and total. Paginating forward from an `after`
cursor requests the first `paginateBy` items after it; paginating backward
from a `before` cursor requests the last `paginateBy` items before it;
with no cursor, the first page is requested. -/
def createPaginationState (paginateBy : Nat) (params : PageParams) : ConnectionVars :=
  match params.after, params.before with
  | some a, _ =>
    { first := some paginateBy, after := some a, last := none, before := none }
  | none, some b =>
    { first := none, after := none, last := some paginateBy, before := some b }
  | none, none =>
    { first := some paginateBy, after := none, last := none, before := none }

/- ## C6: useBulkActions (definition not under src; used by
ProductVariants and CategoryEditPage) -/

/-- Modelled from the spec: the body of `useBulkActions` is not under
`src/` (only its call sites and the `ListActionsWithoutToolbar` interface
are). The spec describes it as a hook that tracks a set of selected row
identifiers; `isChecked` reports membership in that set. -/
def isChecked (selected : Finset String) (id : String) : Bool :=
  id ∈ selected

/-- Modelled from the spec: `toggle` of `useBulkActions` — adds the
identifier to the selected set when absent and removes it when present. -/
def toggle (selected : Finset String) (id : String) : Finset String :=
  if id ∈ selected then selected.erase id else insert id selected

/- ## C8 / C9: VariantPicker (static/js/components/variantPicker) -/

/-- A storefront product variant: a primary key and an attribute map
(attribute pk to value pk, both stringified). -/
structure StoreVariant where
  id : String
  attributes : List (String × String)
deriving DecidableEq, Repr

/-- Reading a property of a JS object modelled as a key/value list. -/
def lookupKey (m : List (String × String)) (k : String) : Option String :=
  (m.find? (fun p => p.1 == k)).map (fun p => p.2)

/-- Lodash `_.isEqual` on two flat string-keyed objects: each key of one maps to
the same value in the other. -/
def objEq (a b : List (String × String)) : Bool :=
  a.all (fun p => lookupKey b p.1 == some p.2) &&
  b.all (fun p => lookupKey a p.1 == some p.2)

/-- Method `matchVariantFromSelection` from `VariantPicker.js`: iterates over
`variants`, remembering every variant whose `attributes` are `_.isEqual`
to the current selection (so the last match survives), and stores the
result — `null` when nothing matched — via `store.setVariant`. -/
def matchVariantFromSelection (selection : List (String × String))
    (variants : List StoreVariant) : Option StoreVariant :=
  variants.foldl
    (fun matchedVariant variant =>
      if objEq selection variant.attributes then some variant else matchedVariant)
    none

/-- The mobx store consumed by `VariantPicker`: holds the matched variant;
`isEmpty` is true when no variant is set. -/
structure VariantPickerStore where
  variant : Option StoreVariant
deriving DecidableEq, Repr

/-- Getter `store.isEmpty`: no matched variant. -/
def storeIsEmpty (store : VariantPickerStore) : Bool :=
  store.variant.isNone

/-- The POST body of the add-to-cart request: `{quantity, variant}`. -/
structure CartRequest where
  quantity : Int
  variantId : String
deriving DecidableEq, Repr

/-- Handler `handleAddToCart` from `VariantPicker.js`: posts
`{quantity, variant: store.variant.id}` only under
`quantity > 0 && !store.isEmpty`; otherwise no request is issued. -/
def handleAddToCart (quantity : Int) (store : VariantPickerStore) : Option CartRequest :=
  match store.variant with
  | some v => if quantity > 0 then some ⟨quantity, v.id⟩ else none
  | none => none

/- ## C10: MultiAutocompleteSelectField -/

/-- Interface `ChoiceType`: a labelled choice with a `value` key. -/
structure ChoiceType where
  label : String
  value : String
deriving DecidableEq, Repr

/-- JS `Array.prototype.indexOf` on a string array: index of the first
occurrence, or `-1` when absent. -/
def jsIndexOf : List String → String → Int
  | [], _ => -1
  | x :: xs, s =>
    if x == s then 0
    else if jsIndexOf xs s = -1 then -1 else jsIndexOf xs s + 1

/-- Value `filteredChoices` from `MultiAutocompleteSelectField.tsx`:
`choices.filter(suggestion => value.map(v => v.value).indexOf(suggestion.value) === -1)`. -/
def filteredChoices (choices value : List ChoiceType) : List ChoiceType :=
  choices.filter
    (fun suggestion => jsIndexOf (value.map (fun v => v.value)) suggestion.value == -1)

/-- Handler `handleSelect`: `onChange` is fired with `[...value, item]`. -/
def handleSelectValue (value : List ChoiceType) (item : ChoiceType) : List ChoiceType :=
  value ++ [item]

/-- JS `indexOf` on the choice array (first structural occurrence). -/
def jsIndexOfChoice : List ChoiceType → ChoiceType → Int
  | [], _ => -1
  | x :: xs, c =>
    if x == c then 0
    else if jsIndexOfChoice xs c = -1 then -1 else jsIndexOfChoice xs c + 1

/-- JS `value.splice(i, 1)` as used by `handleDelete`: removes the element
at index `i`; with `i = -1` (item absent) `splice` removes the last
element. -/
def spliceRemoveOne (value : List ChoiceType) (i : Int) : List ChoiceType :=
  if i = -1 then value.dropLast else value.eraseIdx i.toNat

/-- Handler `handleDelete(item)`: `value.splice(value.indexOf(item), 1)` and then
`onChange` with the mutated array. -/
def handleDeleteValue (value : List ChoiceType) (item : ChoiceType) : List ChoiceType :=
  spliceRemoveOne value (jsIndexOfChoice value item)

/-- Handler `handleKeyDown` on Backspace with an empty input: `onChange` with
`value.slice(0, value.length - 1)`. -/
def handleBackspaceValue (value : List ChoiceType) : List ChoiceType :=
  value.take (value.length - 1)

/- ## C1: ProductImagesReorderProvider.mutate (products/mutations.ts) -/

/-- A `{field, message}` user error from a mutation payload
(`UserError` interface). -/
structure UserError where
  field : String
  message : String
deriving DecidableEq, Repr

/-- A product image as passed in `props.productImages`: `{id, url}`. -/
structure ProductImage where
  id : String
  url : String
deriving DecidableEq, Repr

/-- One entry of the optimistic `productImages` list: `__typename`,
the spread fields of the mapped image (absent when the id is unknown, as
spreading `undefined` adds nothing), and the assigned `sortOrder`. -/
structure OptimisticImageEntry where
  typename : String
  imageId : Option String
  imageUrl : Option String
  sortOrder : Nat
deriving DecidableEq, Repr

/-- The `productImagesMap` built by
`props.productImages.reduce((prev, curr) => { prev[curr.id] = curr; return prev; }, {})`,
read at a key: the last image with that id, if any. -/
def productImagesMapGet (propImages : List ProductImage) (imageId : String) :
    Option ProductImage :=
  propImages.foldl (fun prev curr => if curr.id == imageId then some curr else prev) none

/-- One element of
`opts.variables.imagesIds.map((id, index) => ({__typename: "ProductImage", ...productImagesMap[id], sortOrder: index}))`. -/
def mkReorderEntry (propImages : List ProductImage) (index : Nat) (imageId : String) :
    OptimisticImageEntry :=
  match productImagesMapGet propImages imageId with
  | some img => ⟨"ProductImage", some img.id, some img.url, index⟩
  | none => ⟨"ProductImage", none, none, index⟩

/-- JS `Array.prototype.map` with the element index as second callback
argument, starting from `n`. -/
def mapWithIndex {α β : Type} (f : Nat → α → β) : Nat → List α → List β
  | _, [] => []
  | n, a :: as => f n a :: mapWithIndex f (n + 1) as

/-- The `optimisticResponse.productImageReorder` object: `__typename`,
`errors: null`, and the mapped `productImages`. -/
structure ProductImageReorderOptimistic where
  typename : String
  errors : Option (List UserError)
  productImages : List OptimisticImageEntry
deriving DecidableEq, Repr

/-- The optimistic response constructed by
`ProductImagesReorderProvider.mutate`. -/
def productImagesReorderOptimisticResponse (propImages : List ProductImage)
    (imagesIds : List String) : ProductImageReorderOptimistic :=
  ⟨"ProductImageReorder", none, mapWithIndex (mkReorderEntry propImages) 0 imagesIds⟩

/- ## C3: bulk-delete completion handlers (ProductList.tsx, CategoryList) -/

/-- The observable actions a completion handler can perform: navigate to a
URL target (optionally replacing history), show a notification, refetch
the list query, or submit a mutation (a retry would be one). -/
inductive ListEffect (τ : Type) where
  | navigate (target : τ) (replace : Bool)
  | notify (text : String)
  | refetch
  | submit
deriving DecidableEq, Repr

/-- The query params of the category list URL. -/
structure CategoryListUrlQueryParams where
  action : Option String
  ids : Option (List String)
  after : Option String
  before : Option String
deriving DecidableEq, Repr

/-- Target of `categoryListUrl()` called with no argument: every query param absent. -/
def categoryListUrlDefault : CategoryListUrlQueryParams :=
  ⟨none, none, none, none⟩

/-- Handler `handleBulkDelete` from `ProductList.tsx`: when
`data.productBulkDelete.errors.length === 0` it runs `closeModal()`
(a replacing navigation), `notify({text: i18n.t("Products removed")})`
and `refetch()`; otherwise it does nothing. -/
def handleBulkDelete (params : ProductListUrlQueryParams) (errors : List UserError) :
    List (ListEffect ProductListUrlQueryParams) :=
  if errors.length = 0 then
    [ListEffect.navigate (closeModal params) true,
     ListEffect.notify "Products removed",
     ListEffect.refetch]
  else []

/-- Handler `handleCategoryBulkDelete` from the `CategoryList` view: when
`data.categoryBulkDelete.errors.length === 0` it runs
`navigate(categoryListUrl(), true)` and `refetch()`; otherwise it does
nothing. -/
def handleCategoryBulkDelete (errors : List UserError) :
    List (ListEffect CategoryListUrlQueryParams) :=
  if errors.length = 0 then
    [ListEffect.navigate categoryListUrlDefault true, ListEffect.refetch]
  else []

/-- Whether an effect is a notification. -/
def isNotifyEffect {τ : Type} : ListEffect τ → Bool
  | ListEffect.notify _ => true
  | _ => false

/- ## C7: getVariantAttributeErrors (products/utils/data.ts) -/

/-- A variant attribute as listed in `variantAttributes`: id and slug. -/
structure VariantAttribute where
  id : String
  slug : String
deriving DecidableEq, Repr

/-- Accumulator for JS `String.prototype.split(":")`. -/
def splitColonAux : List Char → List Char → List (List Char)
  | [], acc => [acc.reverse]
  | c :: cs, acc =>
    if c = ':' then acc.reverse :: splitColonAux cs []
    else splitColonAux cs (c :: acc)

/-- JS `s.split(":")`: the colon-separated segments of `s` (one empty
segment for the empty string, as in JS). -/
def splitColon (s : String) : List String :=
  (splitColonAux s.toList []).map (fun cs => String.mk cs)

/-- Expression `err.field.split(":")[1]`: the second colon-separated segment of the
error's field, `undefined` (none) when the field has no colon. -/
def errFieldSlug (err : UserError) : Option String :=
  (splitColon err.field).get? 1

/-- JS object assignment `acc[k] = v` on a string-keyed record:
overwrites the entry when the key is present, appends it otherwise. -/
def setRecord : List (String × String) → String → String → List (String × String)
  | [], k, v => [(k, v)]
  | p :: ps, k, v => if p.1 == k then (k, v) :: ps else p :: setRecord ps k v

/-- Reading `acc[k]` from a string-keyed record. -/
def recordGet : List (String × String) → String → Option String
  | [], _ => none
  | p :: ps, k => if p.1 == k then some p.2 else recordGet ps k

/-- One step of the `errors.reduce` in `getVariantAttributeErrors`:
find the attribute whose slug strictly equals `err.field.split(":")[1]`
and, when found, assign its id the error's message. -/
def gvaeStep (variantAttributes : List VariantAttribute)
    (acc : List (String × String)) (err : UserError) : List (String × String) :=
  match variantAttributes.find? (fun a => some a.slug == errFieldSlug err) with
  | some a => setRecord acc a.id err.message
  | none => acc

/-- Function `getVariantAttributeErrors` from `products/utils/data.ts`. -/
def getVariantAttributeErrors (errors : List UserError)
    (variantAttributes : List VariantAttribute) : List (String × String) :=
  errors.foldl (gvaeStep variantAttributes) []

/-- Follows the claim's words, for comparison with the source: "the
portion of that error's field after the first colon" — everything past
the first `:` of the field, `none` when the field has no colon. -/
def claimFieldSuffix (f : String) : Option String :=
  match splitColon f with
  | [] => none
  | [_] => none
  | _ :: rest => some (String.intercalate ":" rest)

/-- The message of the last error in the list whose second
colon-separated segment equals `slug`, if any. -/
def lastMatchingMessage (errors : List UserError) (slug : String) : Option String :=
  match errors with
  | [] => none
  | err :: rest =>
    match lastMatchingMessage rest slug with
    | some m => some m
    | none => if some slug == errFieldSlug err then some err.message else none

/- ## Theorems -/

/-- C2: the stored auth token is removed exactly on a response carrying a
`networkError` whose `statusCode` is 401; every other response leaves the
state unchanged. -/
theorem invalidTokenLink_removes_token_iff_401 (e : ResponseError) (st : DashboardState) :
    ((∃ ne, e.networkError = some ne ∧ ne.statusCode = some 401) →
      invalidTokenLink e st = removeAuthToken st ∧
      (invalidTokenLink e st).authToken = none) ∧
    ((¬ ∃ ne, e.networkError = some ne ∧ ne.statusCode = some 401) →
      invalidTokenLink e st = st) := by
  constructor
  · rintro ⟨ne, hne, hsc⟩
    simp [invalidTokenLink, hne, hsc, removeAuthToken]
  · intro h
    match hne : e.networkError with
    | none => simp [invalidTokenLink, hne]
    | some ne =>
      have hsc : ¬ ne.statusCode = some 401 := by
        intro hc
        exact h ⟨ne, hne, hc⟩
      simp [invalidTokenLink, hne, hsc]

/-- C2 witness: a 401 network error removes a concrete stored token. -/
theorem invalidTokenLink_removes_token_iff_401_witness :
    (invalidTokenLink ⟨some ⟨some 401, none⟩⟩ ⟨some "tok"⟩).authToken = none :=
  ((invalidTokenLink_removes_token_iff_401 ⟨some ⟨some 401, none⟩⟩ ⟨some "tok"⟩).1
    ⟨⟨some 401, none⟩, rfl, rfl⟩).2

/-- C4: `openModal` replaces only the `action` and `ids` fields of the
current params, `closeModal` clears only those two fields, and the delete
confirmation dialog is open exactly when `params.action` is `delete`. -/
theorem openModal_closeModal_spec (params : ProductListUrlQueryParams)
    (action : ProductListUrlDialog) (ids : List String) :
    (openModal params action ids).action = some action ∧
    (openModal params action ids).ids = some ids ∧
    (openModal params action ids).after = params.after ∧
    (openModal params action ids).before = params.before ∧
    (openModal params action ids).status = params.status ∧
    (closeModal params).action = none ∧
    (closeModal params).ids = none ∧
    (closeModal params).after = params.after ∧
    (closeModal params).before = params.before ∧
    (closeModal params).status = params.status ∧
    (deleteDialogOpen params = true ↔ params.action = some ProductListUrlDialog.delete) := by
  refine ⟨rfl, rfl, rfl, rfl, rfl, rfl, rfl, rfl, rfl, rfl, ?_⟩
  simp [deleteDialogOpen]

/-- C4 witness: the params equations at a concrete params value. -/
theorem openModal_closeModal_spec_witness :
    (openModal ⟨none, none, some "cur", none, none⟩ ProductListUrlDialog.delete ["x"]).after
      = some "cur" :=
  (openModal_closeModal_spec ⟨none, none, some "cur", none, none⟩
    ProductListUrlDialog.delete ["x"]).2.2.1

/-- C5: `createPaginationState` is total (it returns connection variables
on every input) and deterministic — equal arguments give equal results. -/
theorem createPaginationState_total_deterministic (paginateBy : Nat)
    (p q : PageParams) (h : p = q) :
    (∃ v, createPaginationState paginateBy p = v) ∧
    createPaginationState paginateBy p = createPaginationState paginateBy q :=
  ⟨⟨createPaginationState paginateBy p, rfl⟩, by rw [h]⟩

/-- C5 witness: instantiation at a concrete page size and params. -/
theorem createPaginationState_total_deterministic_witness :
    createPaginationState 20 ⟨some "c", none⟩ = createPaginationState 20 ⟨some "c", none⟩ :=
  (createPaginationState_total_deterministic 20 ⟨some "c", none⟩ ⟨some "c", none⟩ rfl).2

/-- Helper: `find?` over an appended list takes the first list's hit first. -/
theorem find?_append_elim {α : Type} (p : α → Bool) (l1 l2 : List α) :
    (l1 ++ l2).find? p = (l1.find? p).elim (l2.find? p) some := by
  induction l1 with
  | nil => simp
  | cons x xs ih =>
    by_cases h : p x <;> simp [List.find?_cons, h, ih]

/-- Helper: folding "keep the last match" equals `find?` on the reverse. -/
theorem foldl_keepLast_eq_find_reverse (p : StoreVariant → Bool) :
    ∀ (variants : List StoreVariant) (acc : Option StoreVariant),
      variants.foldl (fun m v => if p v then some v else m) acc =
        (variants.reverse.find? p).elim acc some := by
  intro variants
  induction variants with
  | nil => intro acc; simp
  | cons x xs ih =>
    intro acc
    rw [List.foldl_cons, ih, List.reverse_cons, find?_append_elim]
    cases hf : xs.reverse.find? p with
    | some y => simp
    | none =>
      by_cases h : p x <;> simp [List.find?_cons, h]

/-- C6: toggling an id twice restores the selection, toggling once flips
`isChecked`, and `isChecked` holds exactly on members of the selected set. -/
theorem useBulkActions_toggle_spec (selected : Finset String) (id : String) :
    toggle (toggle selected id) id = selected ∧
    isChecked (toggle selected id) id = !(isChecked selected id) ∧
    (isChecked selected id = true ↔ id ∈ selected) := by
  by_cases h : id ∈ selected
  · have h2 : id ∉ selected.erase id := Finset.not_mem_erase id selected
    refine ⟨?_, ?_, ?_⟩
    · simp [toggle, h, h2, Finset.insert_erase h]
    · simp [isChecked, toggle, h, h2]
    · simp [isChecked, h]
  · have h2 : id ∈ insert id selected := Finset.mem_insert_self id selected
    refine ⟨?_, ?_, ?_⟩
    · simp [toggle, h, h2, Finset.erase_insert h]
    · simp [isChecked, toggle, h, h2]
    · simp [isChecked, h]

/-- C6 witness: toggling a concrete id in the empty selection and back. -/
theorem useBulkActions_toggle_spec_witness :
    toggle (toggle (∅ : Finset String) "row1") "row1" = (∅ : Finset String) :=
  (useBulkActions_toggle_spec (∅ : Finset String) "row1").1

/-- C8: the variant stored by `matchVariantFromSelection` is the last
variant of the list whose attributes are deep-equal to the selection, and
`none` when no variant matches. -/
theorem matchVariantFromSelection_spec (selection : List (String × String))
    (variants : List StoreVariant) :
    matchVariantFromSelection selection variants =
      variants.reverse.find? (fun v => objEq selection v.attributes) := by
  rw [matchVariantFromSelection,
    foldl_keepLast_eq_find_reverse (fun v => objEq selection v.attributes) variants none]
  cases variants.reverse.find? (fun v => objEq selection v.attributes) <;> simp

/-- C8 witness: with two matching variants the later one is stored. -/
theorem matchVariantFromSelection_spec_witness :
    matchVariantFromSelection [("1", "3")]
        [⟨"a", [("1", "3")]⟩, ⟨"b", [("1", "3")]⟩] =
      ([⟨"a", [("1", "3")]⟩, ⟨"b", [("1", "3")]⟩] :
          List StoreVariant).reverse.find?
        (fun v => objEq [("1", "3")] v.attributes) :=
  matchVariantFromSelection_spec [("1", "3")]
    [⟨"a", [("1", "3")]⟩, ⟨"b", [("1", "3")]⟩]

/-- C9: no add-to-cart request is issued when the quantity is not positive
or no variant is matched; when the quantity is positive and a variant is
matched, the request carries that quantity and the variant's id. -/
theorem handleAddToCart_spec (quantity : Int) (store : VariantPickerStore) :
    ((quantity ≤ 0 ∨ storeIsEmpty store = true) → handleAddToCart quantity store = none) ∧
    (∀ v, 0 < quantity → store.variant = some v →
      handleAddToCart quantity store = some ⟨quantity, v.id⟩) := by
  constructor
  · rintro (hq | he)
    · cases hv : store.variant with
      | none => simp [handleAddToCart, hv]
      | some v => simp [handleAddToCart, hv, not_lt.mpr hq]
    · have hv : store.variant = none := by
        simpa [storeIsEmpty, Option.isNone_iff_eq_none] using he
      simp [handleAddToCart, hv]
  · intro v hq hv
    simp [handleAddToCart, hv, hq]

/-- C9 witness: quantity 2 with a matched variant posts that variant. -/
theorem handleAddToCart_spec_witness :
    handleAddToCart 2 ⟨some ⟨"v1", []⟩⟩ = some ⟨2, "v1"⟩ :=
  (handleAddToCart_spec 2 ⟨some ⟨"v1", []⟩⟩).2 ⟨"v1", []⟩ (by decide) rfl

/-- Helper: `jsIndexOf` returns `-1` or a nonnegative index. -/
theorem jsIndexOf_neg_one_or_nonneg (l : List String) (s : String) :
    jsIndexOf l s = -1 ∨ 0 ≤ jsIndexOf l s := by
  induction l with
  | nil => left; rfl
  | cons x xs ih =>
    by_cases h : x == s
    · right; simp [jsIndexOf, h]
    · rcases ih with h1 | h1
      · left; simp [jsIndexOf, h, h1]
      · right
        by_cases h2 : jsIndexOf xs s = -1
        · omega
        · simp [jsIndexOf, h, h2]; omega

/-- Helper: `indexOf === -1` means the string is absent. -/
theorem jsIndexOf_eq_neg_one_iff (l : List String) (s : String) :
    jsIndexOf l s = -1 ↔ s ∉ l := by
  induction l with
  | nil => simp [jsIndexOf]
  | cons x xs ih =>
    by_cases h : x == s
    · have hx : x = s := by simpa using h
      simp [jsIndexOf, h, hx]
    · have hx : ¬ x = s := by simpa using h
      rcases jsIndexOf_neg_one_or_nonneg xs s with h1 | h1
      · have : s ∉ xs := ih.mp h1
        simp [jsIndexOf, h, h1]
        exact ⟨fun hsx => hx hsx.symm, this⟩
      · have h2 : ¬ jsIndexOf xs s = -1 := by omega
        have : s ∈ xs := by
          by_contra hmem
          exact h2 (ih.mpr hmem)
        simp [jsIndexOf, h, h2, this]
        omega

/-- Helper: membership in `filteredChoices`. -/
theorem mem_filteredChoices (choices value : List ChoiceType) (c : ChoiceType) :
    c ∈ filteredChoices choices value ↔
      (c ∈ choices ∧ c.value ∉ value.map (fun v => v.value)) := by
  simp [filteredChoices, List.mem_filter, jsIndexOf_eq_neg_one_iff]

/-- C10: the suggestion list never shows an already-selected value — a
choice survives the filter exactly when its value is absent from the
selected values — and the invariant persists through the select, delete
and backspace updates. -/
theorem filteredChoices_spec (choices value : List ChoiceType) :
    (∀ c, c ∈ filteredChoices choices value ↔
      (c ∈ choices ∧ c.value ∉ value.map (fun v => v.value))) ∧
    (∀ item c, c ∈ filteredChoices choices (handleSelectValue value item) ↔
      (c ∈ choices ∧
        c.value ∉ (handleSelectValue value item).map (fun v => v.value))) ∧
    (∀ item c, c ∈ filteredChoices choices (handleDeleteValue value item) ↔
      (c ∈ choices ∧
        c.value ∉ (handleDeleteValue value item).map (fun v => v.value))) ∧
    (∀ c, c ∈ filteredChoices choices (handleBackspaceValue value) ↔
      (c ∈ choices ∧
        c.value ∉ (handleBackspaceValue value).map (fun v => v.value))) :=
  ⟨fun c => mem_filteredChoices choices value c,
   fun item c => mem_filteredChoices choices (handleSelectValue value item) c,
   fun item c => mem_filteredChoices choices (handleDeleteValue value item) c,
   fun c => mem_filteredChoices choices (handleBackspaceValue value) c⟩

/-- C10 witness: a selected value is filtered out of concrete choices. -/
theorem filteredChoices_spec_witness :
    ¬ ((⟨"A", "a"⟩ : ChoiceType) ∈
        filteredChoices [⟨"A", "a"⟩, ⟨"B", "b"⟩] [⟨"A", "a"⟩]) := by
  intro hmem
  have h := (filteredChoices_spec [⟨"A", "a"⟩, ⟨"B", "b"⟩] [⟨"A", "a"⟩]).1
    ⟨"A", "a"⟩
  have h2 := (h.mp hmem).2
  simp at h2

/-- Helper: `mapWithIndex` preserves length. -/
theorem mapWithIndex_length {α β : Type} (f : Nat → α → β) (n : Nat) (l : List α) :
    (mapWithIndex f n l).length = l.length := by
  induction l generalizing n with
  | nil => rfl
  | cons a as ih => simp [mapWithIndex, ih]

/-- Helper: the `k`-th element of `mapWithIndex` applies `f` at `n + k`. -/
theorem mapWithIndex_getElem? {α β : Type} (f : Nat → α → β) :
    ∀ (l : List α) (n k : Nat) (hk : k < l.length),
      (mapWithIndex f n l)[k]? = some (f (n + k) (l.get ⟨k, hk⟩)) := by
  intro l
  induction l with
  | nil => intro n k hk; exact absurd hk (Nat.not_lt_zero k)
  | cons a as ih =>
    intro n k hk
    cases k with
    | zero => simp [mapWithIndex]
    | succ k2 =>
      have hk2 : k2 < as.length := Nat.lt_of_succ_lt_succ hk
      have harith : n + 1 + k2 = n + (k2 + 1) := by omega
      simp only [mapWithIndex, List.getElem?_cons_succ]
      rw [ih (n + 1) k2 hk2, harith]
      simp [List.get_eq_getElem, List.getElem_cons_succ]

/-- Helper: the reduce-built image map resolves an id to its unique image. -/
theorem productImagesMapGet_foldl (imageId : String) (img : ProductImage)
    (himg : img.id = imageId) :
    ∀ (propImages : List ProductImage) (acc : Option ProductImage),
      (∀ a ∈ propImages, a.id = imageId → a = img) →
      (acc = some img ∨ img ∈ propImages) →
      propImages.foldl (fun prev curr => if curr.id == imageId then some curr else prev) acc
        = some img := by
  intro propImages
  induction propImages with
  | nil =>
    intro acc _ hacc
    rcases hacc with h | h
    · simpa using h
    · cases h
  | cons x xs ih =>
    intro acc huniq hacc
    rw [List.foldl_cons]
    by_cases hx : x.id = imageId
    · have hxi : x = img := huniq x (List.mem_cons_self x xs) hx
      have hcond : (x.id == imageId) = true := by simp [hx]
      apply ih
      · intro a ha hid2
        exact huniq a (List.mem_cons_of_mem x ha) hid2
      · left; rw [if_pos hcond, hxi]
    · have hcond : ¬ ((x.id == imageId) = true) := by simp [hx]
      apply ih
      · intro a ha hid2
        exact huniq a (List.mem_cons_of_mem x ha) hid2
      · rcases hacc with h | h
        · left; rw [if_neg hcond, h]
        · rcases List.mem_cons.mp h with h2 | h2
          · exact absurd (h2 ▸ himg) hx
          · right; exact h2

/-- Helper: `productImagesMapGet` on a list with unique ids. -/
theorem productImagesMapGet_eq_some (propImages : List ProductImage) (imageId : String)
    (img : ProductImage) (hmem : img ∈ propImages) (himg : img.id = imageId)
    (huniq : ∀ a ∈ propImages, ∀ b ∈ propImages, a.id = b.id → a = b) :
    productImagesMapGet propImages imageId = some img := by
  apply productImagesMapGet_foldl imageId img himg propImages none
  · intro a ha hid2
    exact huniq a ha img hmem (by rw [hid2, himg])
  · right; exact hmem

/-- C1: the optimistic reorder response has a `null` errors field and one
entry per id of `imagesIds`, in order; the `k`-th entry copies the id and
url of the unique image with id `imagesIds[k]` and carries `sortOrder`
equal to that id's index `k` in `imagesIds`. -/
theorem productImagesReorder_optimistic_spec
    (propImages : List ProductImage) (imagesIds : List String)
    (hnodup : imagesIds.Nodup)
    (hex : ∀ i ∈ imagesIds, ∃ img ∈ propImages, img.id = i)
    (huniq : ∀ a ∈ propImages, ∀ b ∈ propImages, a.id = b.id → a = b) :
    (productImagesReorderOptimisticResponse propImages imagesIds).errors = none ∧
    (productImagesReorderOptimisticResponse propImages imagesIds).productImages.length
      = imagesIds.length ∧
    ∀ (k : Nat) (hk : k < imagesIds.length),
      List.indexOf imagesIds[k] imagesIds = k ∧
      ∃ img, img ∈ propImages ∧ img.id = imagesIds[k] ∧
        (productImagesReorderOptimisticResponse propImages imagesIds).productImages[k]?
          = some ⟨"ProductImage", some img.id, some img.url, k⟩ := by
  refine ⟨rfl, ?_, ?_⟩
  · simp [productImagesReorderOptimisticResponse, mapWithIndex_length]
  · intro k hk
    constructor
    · exact List.indexOf_getElem hnodup k hk
    · obtain ⟨img, hmem, hid⟩ := hex imagesIds[k] (List.getElem_mem hk)
      refine ⟨img, hmem, hid, ?_⟩
      show (mapWithIndex (mkReorderEntry propImages) 0 imagesIds)[k]? = _
      rw [mapWithIndex_getElem? (mkReorderEntry propImages) imagesIds 0 k hk]
      simp only [List.get_eq_getElem, Nat.zero_add]
      simp [mkReorderEntry,
        productImagesMapGet_eq_some propImages _ img hmem hid huniq]

/-- C1 witness: reordering two known images swaps them with fresh sort
orders and a `null` errors field. -/
theorem productImagesReorder_optimistic_spec_witness :
    (productImagesReorderOptimisticResponse [⟨"a", "u1"⟩, ⟨"b", "u2"⟩] ["b", "a"]).errors
      = none ∧
    (productImagesReorderOptimisticResponse
        [⟨"a", "u1"⟩, ⟨"b", "u2"⟩] ["b", "a"]).productImages.length = 2 :=
  have h := productImagesReorder_optimistic_spec [⟨"a", "u1"⟩, ⟨"b", "u2"⟩] ["b", "a"]
    (by decide) (by decide) (by decide)
  ⟨h.1, h.2.1⟩

/-- C3 counterexample: on an empty errors array the category bulk-delete
completion handler emits no notification effect, while the claim requires
one. -/
theorem handleCategoryBulkDelete_no_notification :
    (handleCategoryBulkDelete ([] : List UserError)).any isNotifyEffect = false := rfl

/-- C3 (amended): on an empty errors array the product handler closes the
dialog, notifies and refetches, and the category handler closes the dialog
(navigating to the bare category list URL) and refetches without a
notification; on a non-empty errors array both handlers do nothing; and
neither handler ever submits a mutation (no automatic retry). -/
theorem bulkDelete_completion_spec :
    (∀ (params : ProductListUrlQueryParams) (errors : List UserError), errors = [] →
      handleBulkDelete params errors =
        [ListEffect.navigate (closeModal params) true,
         ListEffect.notify "Products removed", ListEffect.refetch]) ∧
    (∀ (params : ProductListUrlQueryParams) (errors : List UserError), errors ≠ [] →
      handleBulkDelete params errors = []) ∧
    (∀ errors : List UserError, errors = [] →
      handleCategoryBulkDelete errors =
        [ListEffect.navigate categoryListUrlDefault true, ListEffect.refetch]) ∧
    (∀ errors : List UserError, errors ≠ [] → handleCategoryBulkDelete errors = []) ∧
    (∀ (params : ProductListUrlQueryParams) (errors : List UserError),
      ListEffect.submit ∉ handleBulkDelete params errors) ∧
    (∀ errors : List UserError, ListEffect.submit ∉ handleCategoryBulkDelete errors) := by
  refine ⟨?_, ?_, ?_, ?_, ?_, ?_⟩
  · intro params errors h; subst h; rfl
  · intro params errors h
    have h2 : errors.length ≠ 0 := by simpa [List.length_eq_zero] using h
    simp [handleBulkDelete, h2]
  · intro errors h; subst h; rfl
  · intro errors h
    have h2 : errors.length ≠ 0 := by simpa [List.length_eq_zero] using h
    simp [handleCategoryBulkDelete, h2]
  · intro params errors
    by_cases h : errors.length = 0 <;> simp [handleBulkDelete, h]
  · intro errors
    by_cases h : errors.length = 0 <;> simp [handleCategoryBulkDelete, h]

/-- C3 witness: the amended behaviour at concrete inputs. -/
theorem bulkDelete_completion_spec_witness :
    handleCategoryBulkDelete ([] : List UserError) =
      [ListEffect.navigate categoryListUrlDefault true, ListEffect.refetch] :=
  bulkDelete_completion_spec.2.2.1 [] rfl

/-- Helper: reading back the key just assigned. -/
theorem setRecord_get_same (acc : List (String × String)) (k v : String) :
    recordGet (setRecord acc k v) k = some v := by
  induction acc with
  | nil => simp [setRecord, recordGet]
  | cons p ps ih =>
    by_cases h : p.1 = k
    · simp [setRecord, recordGet, h]
    · simp [setRecord, recordGet, h, ih]

/-- Helper: assignment leaves other keys unchanged. -/
theorem setRecord_get_other (k k2 v : String) (hne : k ≠ k2) :
    ∀ acc : List (String × String),
      recordGet (setRecord acc k v) k2 = recordGet acc k2 := by
  intro acc
  induction acc with
  | nil => simp [setRecord, recordGet, hne]
  | cons p ps ih =>
    by_cases h : p.1 = k
    · simp [setRecord, recordGet, h, hne]
    · simp [setRecord, recordGet, h, ih]

/-- Helper: `find?` returns the designated element when it is the only one
satisfying the predicate. -/
theorem find?_eq_of_unique {α : Type} (p : α → Bool) :
    ∀ (l : List α) (a : α), a ∈ l → p a = true →
      (∀ b ∈ l, p b = true → b = a) → l.find? p = some a := by
  intro l
  induction l with
  | nil => intro a ha _ _; cases ha
  | cons x xs ih =>
    intro a ha hpa huniq
    by_cases hx : p x = true
    · have hxa : x = a := huniq x (List.mem_cons_self x xs) hx
      simp [List.find?_cons, hxa, hpa]
    · have hxa : a ≠ x := fun h => hx (h ▸ hpa)
      have ha2 : a ∈ xs := by
        rcases List.mem_cons.mp ha with h | h
        · exact absurd h hxa
        · exact h
      have hres := ih a ha2 hpa (fun b hb hpb => huniq b (List.mem_cons_of_mem x hb) hpb)
      have hx2 : p x = false := by simpa using hx
      simp [List.find?_cons, hx2, hres]

/-- Helper: the reduce of `getVariantAttributeErrors` at a listed
attribute's id computes the last matching error's message, falling back to
the accumulator. -/
theorem gvae_foldl_get (variantAttributes : List VariantAttribute)
    (hslug : ∀ a ∈ variantAttributes, ∀ b ∈ variantAttributes, a.slug = b.slug → a = b)
    (hid : ∀ a ∈ variantAttributes, ∀ b ∈ variantAttributes, a.id = b.id → a = b)
    (a : VariantAttribute) (ha : a ∈ variantAttributes) :
    ∀ (errors : List UserError) (acc : List (String × String)),
      recordGet (errors.foldl (gvaeStep variantAttributes) acc) a.id =
        (lastMatchingMessage errors a.slug).elim (recordGet acc a.id) some := by
  intro errors
  induction errors with
  | nil => intro acc; simp [lastMatchingMessage]
  | cons err rest ih =>
    intro acc
    rw [List.foldl_cons]
    by_cases hmatch : errFieldSlug err = some a.slug
    · have hfind : variantAttributes.find? (fun b => some b.slug == errFieldSlug err)
          = some a := by
        apply find?_eq_of_unique _ _ a ha
        · simp [hmatch]
        · intro b hb hpb
          apply hslug b hb a ha
          simp [hmatch] at hpb
          exact hpb
      have hstep : gvaeStep variantAttributes acc err = setRecord acc a.id err.message := by
        simp [gvaeStep, hfind]
      rw [hstep, ih (setRecord acc a.id err.message)]
      cases hrest : lastMatchingMessage rest a.slug with
      | some m => simp [lastMatchingMessage, hrest]
      | none => simp [lastMatchingMessage, hrest, hmatch, setRecord_get_same]
    · have hlast : lastMatchingMessage (err :: rest) a.slug
          = lastMatchingMessage rest a.slug := by
        cases hrest : lastMatchingMessage rest a.slug with
        | some m => simp [lastMatchingMessage, hrest]
        | none =>
          have hne : (some a.slug == errFieldSlug err) = false := by
            simp
            intro h
            exact hmatch h.symm
          simp [lastMatchingMessage, hrest, hne]
      cases hfind : variantAttributes.find? (fun b => some b.slug == errFieldSlug err) with
      | none =>
        have hstep : gvaeStep variantAttributes acc err = acc := by
          simp [gvaeStep, hfind]
        rw [hstep, ih acc, hlast]
      | some b =>
        have hbmem : b ∈ variantAttributes := List.mem_of_find?_eq_some hfind
        have hpb := List.find?_some hfind
        have hbs : errFieldSlug err = some b.slug := by
          simp at hpb
          exact hpb.symm
        have hbne : b.id ≠ a.id := by
          intro hba
          exact hmatch (by rw [hbs, hid b hbmem a ha hba])
        have hstep : gvaeStep variantAttributes acc err
            = setRecord acc b.id err.message := by
          simp [gvaeStep, hfind]
        rw [hstep, ih (setRecord acc b.id err.message), hlast,
          setRecord_get_other b.id a.id err.message hbne acc]

/-- Helper: keys that are no listed attribute's id are never assigned. -/
theorem gvae_foldl_get_other (variantAttributes : List VariantAttribute) (k : String)
    (hk : ∀ a ∈ variantAttributes, a.id ≠ k) :
    ∀ (errors : List UserError) (acc : List (String × String)),
      recordGet (errors.foldl (gvaeStep variantAttributes) acc) k = recordGet acc k := by
  intro errors
  induction errors with
  | nil => intro acc; rfl
  | cons err rest ih =>
    intro acc
    rw [List.foldl_cons]
    cases hfind : variantAttributes.find? (fun b => some b.slug == errFieldSlug err) with
    | none =>
      have hstep : gvaeStep variantAttributes acc err = acc := by
        simp [gvaeStep, hfind]
      rw [hstep, ih acc]
    | some b =>
      have hbmem : b ∈ variantAttributes := List.mem_of_find?_eq_some hfind
      have hstep : gvaeStep variantAttributes acc err
          = setRecord acc b.id err.message := by
        simp [gvaeStep, hfind]
      rw [hstep, ih (setRecord acc b.id err.message),
        setRecord_get_other b.id k err.message (hk b hbmem) acc]

/-- C7 counterexample: with error field `"attributes:color:x"` the code
matches the attribute with slug `"color"` (it compares the second
colon-separated segment), while the portion after the first colon is
`"color:x"`, which the claim says should match nothing. -/
theorem getVariantAttributeErrors_suffix_counterexample :
    recordGet (getVariantAttributeErrors [⟨"attributes:color:x", "msg"⟩]
        [⟨"id1", "color"⟩]) "id1" = some "msg" ∧
    claimFieldSuffix "attributes:color:x" ≠ some "color" := by
  constructor
  · rfl
  · decide

/-- C7 (amended): under pairwise-distinct attribute slugs and ids, the
record maps each listed attribute's id to the message of the last error
whose second colon-separated field segment equals that attribute's slug
(absent when no error matches), and maps nothing that is not a listed
attribute's id. -/
theorem getVariantAttributeErrors_spec
    (errors : List UserError) (variantAttributes : List VariantAttribute)
    (hslug : ∀ a ∈ variantAttributes, ∀ b ∈ variantAttributes, a.slug = b.slug → a = b)
    (hid : ∀ a ∈ variantAttributes, ∀ b ∈ variantAttributes, a.id = b.id → a = b) :
    (∀ a ∈ variantAttributes,
      recordGet (getVariantAttributeErrors errors variantAttributes) a.id =
        lastMatchingMessage errors a.slug) ∧
    (∀ k, (∀ a ∈ variantAttributes, a.id ≠ k) →
      recordGet (getVariantAttributeErrors errors variantAttributes) k = none) := by
  constructor
  · intro a ha
    rw [getVariantAttributeErrors,
      gvae_foldl_get variantAttributes hslug hid a ha errors []]
    cases lastMatchingMessage errors a.slug <;> rfl
  · intro k hk
    rw [getVariantAttributeErrors,
      gvae_foldl_get_other variantAttributes k hk errors []]
    rfl

/-- C7 witness: with two errors on the same attribute the later message
wins, matching `lastMatchingMessage`. -/
theorem getVariantAttributeErrors_spec_witness :
    recordGet (getVariantAttributeErrors
        [⟨"attributes:color", "m1"⟩, ⟨"attributes:color", "m2"⟩]
        [⟨"id1", "color"⟩]) "id1" =
      lastMatchingMessage
        [⟨"attributes:color", "m1"⟩, ⟨"attributes:color", "m2"⟩] "color" :=
  (getVariantAttributeErrors_spec
      [⟨"attributes:color", "m1"⟩, ⟨"attributes:color", "m2"⟩]
      [⟨"id1", "color"⟩] (by decide) (by decide)).1 ⟨"id1", "color"⟩ (by decide)
